import Mathlib

/-!
Verification of the two-stage transformer defect detection service
(`tf_model/fastapi_server.py` and `tf_model/two_stage_defect_detection.py`).

The Python source is shallowly embedded: numeric values (confidences,
coordinates after normalization) are rationals, pixel coordinates are
integers, strings are Lean strings whose character lists are processed by
executable helper functions, and the black-box YOLO models are oracles whose
outputs (lists of raw detections) are inputs of the embedded functions.
-/

/-! ## String helpers (executable stand-ins for Python string operations) -/

/-- Contiguous tails of a character list. -/
def charTails : List Char → List (List Char)
  | [] => [[]]
  | c :: cs => (c :: cs) :: charTails cs

/-- Python's `pat in s` substring test, on character lists. -/
def containsSeq (s pat : List Char) : Bool :=
  (charTails s).any (fun t => pat.isPrefixOf t)

/-- Python's `pat in s` on strings. -/
def strContains (s pat : String) : Bool :=
  containsSeq s.data pat.data

/-- String equality through character lists (kernel-reducible). -/
def strEq (a b : String) : Bool := a.data == b.data

/-! ## Two-stage detector data model
(`fastapi_server.py` lines 49-86 and the dictionaries built by
`TwoStageTransformerDetector`). -/

/-- An axis-aligned box `[x1, y1, x2, y2]` in integer pixel coordinates. -/
structure PixBox where
  x1 : ℤ
  y1 : ℤ
  x2 : ℤ
  y2 : ℤ
deriving Repr, DecidableEq

/-- One raw box produced by a YOLO model (`result.boxes` row: `xyxy`
coordinates cast to int, `conf`, `cls`).  The models are black boxes; their
outputs are inputs of the embedding. -/
structure RawDetection where
  cls_id : ℕ
  conf : ℚ
  box : PixBox
deriving Repr, DecidableEq

/-- The fixed class-name table `self.defect_classes`. -/
def defect_classes : List String :=
  ["Full Wire Overload PF", "Loose Joint F", "Loose Joint PF",
   "Point Overload F", "Point Overload PF", "Transformer Overload"]

/-- The fixed BGR color table `self.colors`, with the `(255,255,255)`
default of `self.colors.get(cls_id, (255, 255, 255))`. -/
def defect_color (cls_id : ℕ) : ℕ × ℕ × ℕ :=
  match cls_id with
  | 0 => (0, 0, 255)
  | 1 => (0, 165, 255)
  | 2 => (0, 255, 255)
  | 3 => (255, 0, 0)
  | 4 => (255, 0, 255)
  | 5 => (0, 255, 0)
  | _ => (255, 255, 255)

/-- Lookup `self.defect_classes[cls_id] if cls_id < len(self.defect_classes) else
f"Class_{cls_id}"`. -/
def defect_class_name (cls_id : ℕ) : String :=
  defect_classes.getD cls_id ("Class_" ++ toString cls_id)

/-- One entry of the `defects` list built by `_detect_defects`: id, class id,
class name, confidence, bbox in crop space, area, color. -/
structure Defect where
  id : ℕ
  class_id : ℕ
  class_name : String
  confidence : ℚ
  bbox : PixBox
  area : ℤ
  color : ℕ × ℕ × ℕ
deriving Repr, DecidableEq

/-- Stage-1 outcome (`_segment_transformer`): the `stage1_info` dictionary.
`detected` carries confidence, the raw bbox, the padded crop bbox and the
transformer area. -/
inductive Stage1Result where
  | modelNotLoaded
  | noTransformer
  | detected (confidence : ℚ) (bbox cropBbox : PixBox) (area : ℤ)
deriving Repr, DecidableEq

/-- Whether stage 1 reported `"status": "transformer_detected"`. -/
def Stage1Result.isDetected : Stage1Result → Bool
  | .detected _ _ _ _ => true
  | _ => false

/-- The padded crop box of a `detected` result, if any. -/
def Stage1Result.cropBox : Stage1Result → Option PixBox
  | .detected _ _ c _ => some c
  | _ => none

/-! ## Stage 1: `_segment_transformer` (fastapi_server.py lines 485-541) -/

/-- Python's `np.argmax` over confidences: the first detection of maximal confidence
(ties broken by scan order), `none` on an empty list. -/
def argmaxConf : List RawDetection → Option RawDetection
  | [] => none
  | r :: rs =>
    match argmaxConf rs with
    | none => some r
    | some b => if b.conf ≤ r.conf then some r else some b

/-- Stage 1.  `results` is the localizer's output on the full image (already
filtered by the confidence threshold inside the model call).  On a detection,
the padded crop box uses `padding = 20` clamped to the image bounds. -/
def segment_transformer (width height : ℤ) (modelLoaded : Bool)
    (results : List RawDetection) : Stage1Result :=
  if !modelLoaded then .modelNotLoaded
  else
    match argmaxConf results with
    | none => .noTransformer
    | some best =>
      let padding : ℤ := 20
      let x1_crop := max 0 (best.box.x1 - padding)
      let y1_crop := max 0 (best.box.y1 - padding)
      let x2_crop := min width (best.box.x2 + padding)
      let y2_crop := min height (best.box.y2 + padding)
      .detected best.conf best.box ⟨x1_crop, y1_crop, x2_crop, y2_crop⟩
        ((best.box.x2 - best.box.x1) * (best.box.y2 - best.box.y1))

/-! ## Stage 2: `_detect_defects` (fastapi_server.py lines 543-595; the same
loop and sort appear in `two_stage_defect_detection.py` lines 219-250). -/

/-- One iteration of the `for i, (box, conf, cls_id) in enumerate(...)` loop
body: builds the defect dictionary. -/
def mkDefect (i : ℕ) (r : RawDetection) : Defect :=
  { id := i
    class_id := r.cls_id
    class_name := defect_class_name r.cls_id
    confidence := r.conf
    bbox := r.box
    area := (r.box.x2 - r.box.x1) * (r.box.y2 - r.box.y1)
    color := defect_color r.cls_id }

/-- The enumerate loop: builds the unsorted `defects` list. -/
def build_defects : ℕ → List RawDetection → List Defect
  | _, [] => []
  | i, r :: rs => mkDefect i r :: build_defects (i + 1) rs

/-- The order `defects.sort(key=lambda x: x['confidence'], reverse=True)`
sorts by: later element's confidence at most the earlier one's. -/
def confDesc (a b : Defect) : Prop := b.confidence ≤ a.confidence

instance : DecidableRel confDesc := fun a b =>
  inferInstanceAs (Decidable (b.confidence ≤ a.confidence))

instance : IsTotal Defect confDesc :=
  ⟨fun a b => le_total b.confidence a.confidence⟩

instance : IsTrans Defect confDesc :=
  ⟨fun _ _ _ hab hbc => le_trans hbc hab⟩

/-- The sort `defects.sort(key=lambda x: x['confidence'], reverse=True)`: a stable
sort into non-increasing confidence order. -/
def sort_defects (ds : List Defect) : List Defect :=
  ds.insertionSort confDesc

/-- Stage 2.  `results` is the defect model's output on the cropped
transformer image (crop-space coordinates).  Returns the sorted defect
list; the `stage2_info` status dictionary is reflected by the list itself
(empty iff `no_defects_detected` / model not loaded). -/
def detect_defects (modelLoaded : Bool) (results : List RawDetection) :
    List Defect :=
  if !modelLoaded then []
  else sort_defects (build_defects 0 results)

/-! ## Severity and the verdict
(`detect_defects_two_stage`, fastapi_server.py lines 396-477). -/

/-- Per-defect class weight (lines 410-416): `"Overload" in name` gives 1.0,
`"Loose Joint" in name` gives 0.8, anything else 0.5. -/
def severityWeight (className : String) : ℚ :=
  if strContains className "Overload" then 1
  else if strContains className "Loose Joint" then mkRat 4 5
  else mkRat 1 2

/-- The `total_severity` accumulator loop (lines 399-418). -/
def totalSeverity (ds : List Defect) : ℚ :=
  ds.foldl (fun acc d => acc + d.confidence * severityWeight d.class_name) 0

/-- Line 422: `overall_severity = total_severity / total_detections if
total_detections > 0 else 0.0` (line 422). -/
def severityScore (ds : List Defect) : ℚ :=
  if 0 < ds.length then totalSeverity ds / (ds.length : ℚ) else 0

/-- Severity level labels. -/
inductive SeverityLevel where
  | NO_TRANSFORMER | NORMAL | LOW | MEDIUM | HIGH | CRITICAL
deriving Repr, DecidableEq

/-- The threshold chain of lines 429-436 (reached only with ≥ 1 detection
and a located transformer). -/
def severityLevelOfScore (score : ℚ) : SeverityLevel :=
  if mkRat 4 5 < score then .CRITICAL
  else if mkRat 1 2 < score then .HIGH
  else if mkRat 3 10 < score then .MEDIUM
  else .LOW

/-- The full `severity_level` decision (lines 425-436). -/
def severityLevelOf (stage1 : Stage1Result) (ds : List Defect) : SeverityLevel :=
  if !stage1.isDetected then .NO_TRANSFORMER
  else if ds.length = 0 then .NORMAL
  else severityLevelOfScore (severityScore ds)

/-- The part of `TwoStageDetectionResult` the claims are about.  The
`detections` list holds the `Detection(...)` records built in lines 399-408:
they copy each defect's fields, bbox included, without re-projection. -/
structure Verdict where
  stage1 : Stage1Result
  detections : List Defect
  total_detections : ℕ
  severity_level : SeverityLevel
  severity_score : ℚ
deriving Repr, DecidableEq

/-- Function `detect_defects_two_stage` (lines 361-477).  The two model outputs are
oracle inputs; stage 2 runs only when stage 1 detected a transformer. -/
def detect_defects_two_stage (width height : ℤ)
    (transformerLoaded defectLoaded : Bool)
    (stage1Results stage2Results : List RawDetection) : Verdict :=
  let stage1 := segment_transformer width height transformerLoaded stage1Results
  let defects :=
    if stage1.isDetected then detect_defects defectLoaded stage2Results
    else []
  { stage1 := stage1
    detections := defects
    total_detections := defects.length
    severity_level := severityLevelOf stage1 defects
    severity_score := severityScore defects }

/-- Function `_overlay_results` (lines 597-639): the boxes drawn on the original
image.  Only here is each defect's crop-space bbox shifted by the padded
crop's top-left corner. -/
def overlay_boxes (stage1 : Stage1Result) (defects : List Defect) :
    List PixBox :=
  match stage1 with
  | .detected _ _ crop _ =>
    defects.map (fun d =>
      ⟨crop.x1 + d.bbox.x1, crop.y1 + d.bbox.y1,
       crop.x1 + d.bbox.x2, crop.y1 + d.bbox.y2⟩)
  | _ => []

/-! ## Dataset preparation: annotation-to-label conversion
(`prepare_retraining_dataset.process_image`, fastapi_server.py lines
1352-1424). -/

/-- One raw annotation as fetched from the backend (`ann.get(...)`: every
field may be absent). -/
structure Ann where
  bboxX1 : Option ℚ
  bboxY1 : Option ℚ
  bboxX2 : Option ℚ
  bboxY2 : Option ℚ
  classId : Option ℤ
  className : String
deriving Repr, DecidableEq

/-- Line 1405: `class_identifier = class_id if class_id is not None else class_name`
(line 1405). -/
inductive ClassIdent where
  | byId (i : ℤ)
  | byName (n : String)
deriving Repr, DecidableEq

/-- Python's `round(v, 6)` on rationals: round to the nearest multiple of 10^-6.
(Python rounds half to even on floats; ties never arise in the claims
below, and the distance bound `|round6 q - q| ≤ 1/2 * 10^-6` holds for
either tie rule.) -/
def round6 (q : ℚ) : ℚ := (round (q * 1000000) : ℚ) / 1000000

/-- The per-annotation body of the conversion loop (lines 1352-1410):
subtract the crop offset, drop annotations entirely outside the cropped
frame, clip to the frame, drop zero-area boxes, normalize the center and
size by the effective dimensions and round to 6 decimals.  Returns the
class identifier and the four normalized values of the label line, or
`none` when the annotation is skipped. -/
def convertAnn (ox oy W H : ℚ) (a : Ann) :
    Option (ClassIdent × ℚ × ℚ × ℚ × ℚ) :=
  match a.bboxX1, a.bboxY1, a.bboxX2, a.bboxY2 with
  | some bx1, some by1, some bx2, some by2 =>
    let adjusted_x1 := bx1 - ox
    let adjusted_y1 := by1 - oy
    let adjusted_x2 := bx2 - ox
    let adjusted_y2 := by2 - oy
    if adjusted_x2 ≤ 0 ∨ adjusted_y2 ≤ 0 ∨ adjusted_x1 ≥ W ∨ adjusted_y1 ≥ H then
      none
    else
      let cx1 := max 0 adjusted_x1
      let cy1 := max 0 adjusted_y1
      let cx2 := min W adjusted_x2
      let cy2 := min H adjusted_y2
      let w := cx2 - cx1
      let h := cy2 - cy1
      if w ≤ 0 ∨ h ≤ 0 then none
      else
        let x_center := round6 ((cx1 + w / 2) / W)
        let y_center := round6 ((cy1 + h / 2) / H)
        let w_norm := round6 (w / W)
        let h_norm := round6 (h / H)
        let ident := match a.classId with
          | some i => ClassIdent.byId i
          | none => ClassIdent.byName a.className
        some (ident, x_center, y_center, w_norm, h_norm)
  | _, _, _, _ => none

/-- The characters the class identifier contributes to the line: the
rendered integer id, or the raw class name. -/
def identChars (renderId : ℤ → List Char) : ClassIdent → List Char
  | .byId i => renderId i
  | .byName n => n.data

/-- The YOLO label line
`f"{class_identifier} {x_center} {y_center} {w_norm} {h_norm}"` (line 1408),
as a character list.  `render` and `renderId` stand for Python's number
formatting (`str` of a float / int), which never emits a space. -/
def yolo_line (render : ℚ → List Char) (renderId : ℤ → List Char)
    (ci : ClassIdent) (xc yc wn hn : ℚ) : List Char :=
  identChars renderId ci ++
  ' ' :: render xc ++ ' ' :: render yc ++ ' ' :: render wn ++ ' ' :: render hn

/-- The `yolo_lines` list for one image (the loop of lines 1350-1410). -/
def labelLines (render : ℚ → List Char) (renderId : ℤ → List Char)
    (ox oy W H : ℚ) (anns : List Ann) : List (List Char) :=
  anns.filterMap (fun a =>
    (convertAnn ox oy W H a).map (fun r =>
      yolo_line render renderId r.1 r.2.1 r.2.2.1 r.2.2.2.1 r.2.2.2.2))

/-- The written label-file content (lines 1412-1421):
`'\n'.join(yolo_lines) + '\n'` when the fetched annotation list is
non-empty, the empty file otherwise. -/
def labelFileContent (render : ℚ → List Char) (renderId : ℤ → List Char)
    (ox oy W H : ℚ) (anns : List Ann) : List Char :=
  if anns.isEmpty then []
  else List.intercalate ['\n'] (labelLines render renderId ox oy W H anns) ++ ['\n']

/-- Split a character list on single spaces (the field structure of a label
line, as `line.split(" ")` would see it). -/
def splitOnSpace : List Char → List (List Char)
  | [] => [[]]
  | c :: cs =>
    if c = ' ' then [] :: splitOnSpace cs
    else
      match splitOnSpace cs with
      | [] => [[c]]
      | f :: fs => (c :: f) :: fs

/-- Number of space-separated fields of a line. -/
def fieldCount (l : List Char) : ℕ := (splitOnSpace l).length

/-- Concrete digit rendering used to instantiate `render`/`renderId`:
`digitChar d` is the ASCII digit for `d < 10`. -/
def digitChar (d : ℕ) : Char := Char.ofNat (48 + d)

/-- Fuel-driven base-10 digit expansion. -/
def natDigitsAux : ℕ → ℕ → List Char
  | 0, _ => []
  | fuel + 1, n =>
    if n < 10 then [digitChar n]
    else natDigitsAux fuel (n / 10) ++ [digitChar (n % 10)]

/-- Decimal rendering of a natural number. -/
def natChars (n : ℕ) : List Char := natDigitsAux (n + 1) n

/-- Decimal rendering of an integer. -/
def intChars (i : ℤ) : List Char :=
  if i < 0 then '-' :: natChars i.natAbs else natChars i.natAbs

/-- A space-free rendering of a rational (stands in for Python's float
repr, which is likewise space-free). -/
def ratChars (q : ℚ) : List Char :=
  if q.den = 1 then intChars q.num
  else intChars q.num ++ '/' :: natChars q.den

/-! ## Training job state
(`training_state` global, fastapi_server.py lines 184-198; endpoints at
lines 1467-1568 and 1845-1873; worker at lines 731-969). -/

/-- The `"status"` field of `training_state`. -/
inductive JStatus where
  | idle | running | done | error | stopped
deriving Repr, DecidableEq

/-- One entry of `training_state["metrics"]`
(the `epoch_metrics` dictionary, lines 813-829). -/
structure EpochM where
  epoch : ℕ
  train_loss : Option ℚ
  val_loss : Option ℚ
  precision : Option ℚ
  «recall» : Option ℚ
  mAP50 : Option ℚ
  mAP50_95 : Option ℚ
deriving Repr, DecidableEq

/-- The request body of `/tools/retrain/start` (`TrainingRequest`,
lines 118-127; defaults epochs 50, batch 16, lr 0.001, size 640). -/
structure TrainingRequest where
  epochs : ℕ
  batch_size : ℕ
  learning_rate : ℚ
  image_size : ℕ
  use_gpu : Bool
  seed : Option ℤ
  base_model_path : Option String
  output_dir : Option String
deriving Repr, DecidableEq

/-- The `training_config` dictionary built by `start_retraining`
(lines 1528-1540). `temp_dir_stamp` stands for the timestamp embedded in
the `temp_training_<now>` directory name. -/
structure TrainConfig where
  new_dataset_path : String
  base_dataset_path : String
  temp_dir_stamp : ℕ
  base_model_path : String
  epochs : ℕ
  batch_size : ℕ
  learning_rate : ℚ
  image_size : ℕ
  use_gpu : Bool
  seed : Option ℤ
  output_dir : String
deriving Repr, DecidableEq

/-- The `training_state` record. Timestamps are abstract clock values. -/
structure TrainingState where
  status : JStatus
  started_at : Option ℕ
  finished_at : Option ℕ
  current_epoch : ℕ
  total_epochs : ℕ
  metrics : List EpochM
  weights_path : Option String
  error : Option String
  warnings : List String
  config : Option TrainConfig
deriving Repr, DecidableEq

/-- The module-initialization value of `training_state` (lines 185-196). -/
def initialTrainingState : TrainingState :=
  { status := .idle, started_at := none, finished_at := none,
    current_epoch := 0, total_epochs := 0, metrics := [],
    weights_path := none, error := none, warnings := [], config := none }

/-- What `start_retraining` checks on the filesystem (lines 1493-1522). -/
structure FS where
  newDatasetExists : Bool
  baseDatasetExists : Bool
  newImagesNonempty : Bool
  newLabelsNonempty : Bool
deriving Repr, DecidableEq

/-- Outcome of the synchronous part of `/tools/retrain/start`: an
`HTTPException` with its status code, or the reset state handed to the
background worker. -/
inductive StartOutcome where
  | rejected (statusCode : ℕ) (detail : String)
  | started (newState : TrainingState)
deriving Repr, DecidableEq

/-- Endpoint `start_retraining` (lines 1467-1568): reject with 409 while a job is
running, 400 when the datasets are missing or empty; otherwise reset the
job record (status `idle`, epoch 0, fresh config) and submit the worker. -/
def start_retraining (fs : FS) (now : ℕ) (st : TrainingState)
    (req : TrainingRequest) : StartOutcome :=
  if st.status = .running then
    .rejected 409 "Training is already in progress. Stop the current training first or wait for it to complete."
  else if !fs.newDatasetExists then
    .rejected 400 "new_dataset path not found"
  else if !fs.baseDatasetExists then
    .rejected 400 "Base dataset path not found"
  else if !fs.newImagesNonempty then
    .rejected 400 "new_dataset/images is empty or does not exist. Run /tools/retrain/prepare-dataset first."
  else if !fs.newLabelsNonempty then
    .rejected 400 "new_dataset/labels is empty or does not exist. Run /tools/retrain/prepare-dataset first."
  else
    .started
      { status := .idle, started_at := none, finished_at := none,
        current_epoch := 0, total_epochs := req.epochs, metrics := [],
        weights_path := none, error := none, warnings := [],
        config := some
          { new_dataset_path := "new_dataset",
            base_dataset_path := "Transformer Defects",
            temp_dir_stamp := now,
            base_model_path := req.base_model_path.getD "weights/defects/best.pt",
            epochs := req.epochs, batch_size := req.batch_size,
            learning_rate := req.learning_rate, image_size := req.image_size,
            use_gpu := req.use_gpu, seed := req.seed,
            output_dir := req.output_dir.getD "weights/updated_defect" } }

/-- The job record after the endpoint returns: unchanged on rejection. -/
def stateAfterStart (st : TrainingState) : StartOutcome → TrainingState
  | .rejected _ _ => st
  | .started st' => st'

/-- Endpoint `stop_retraining` (lines 1845-1873): 400 unless the status is
`running`, else mark the record stopped. -/
def stop_retraining (now : ℕ) (st : TrainingState) :
    Option TrainingState :=
  if st.status = .running then
    some { st with status := .stopped, finished_at := some now,
                   error := some "Training stopped by user" }
  else none

/-- The worker's initial lock-protected write (lines 742-746). -/
def workerBeginState (now : ℕ) (st : TrainingState) : TrainingState :=
  { st with status := .running, started_at := some now,
            current_epoch := 0, metrics := [] }

/-- The `on_train_epoch_end` callback's write (lines 832-839): set the
epoch counter and append or overwrite the metric slot. -/
def epochEndState (e : ℕ) (m : EpochM) (st : TrainingState) : TrainingState :=
  { st with current_epoch := e,
            metrics := if st.metrics.length < e
                       then st.metrics ++ [m]
                       else st.metrics.set (e - 1) m }

/-- The worker's write of dataset-preparation warnings (lines 759-760). -/
def setWarningsState (ws : List String) (st : TrainingState) : TrainingState :=
  { st with warnings := ws }

/-- The worker's success write (lines 943-947). -/
def workerDoneState (now : ℕ) (wp : String) (st : TrainingState) :
    TrainingState :=
  { st with status := .done, finished_at := some now,
            weights_path := some wp, current_epoch := st.total_epochs }

/-- The worker's exception-handler write (lines 957-960). -/
def workerFailState (now : ℕ) (msg : String) (st : TrainingState) :
    TrainingState :=
  { st with status := .error, error := some msg, finished_at := some now }

/-- Process-wide training state: the job record, the number of worker jobs
submitted to the single-thread executor but not yet begun, and whether a
worker is currently executing. -/
structure Sys where
  ts : TrainingState
  queued : ℕ
  executing : Bool
deriving Repr, DecidableEq

/-- The process state at startup. -/
def sysInit : Sys := { ts := initialTrainingState, queued := 0, executing := false }

/-- One atomic lock-protected transition of the shared record, performed by
the start endpoint, the stop endpoint, or the background worker. -/
inductive Step : Sys → Sys → Prop where
  | start (fs : FS) (now : ℕ) (req : TrainingRequest) (s : Sys)
      (ts' : TrainingState)
      (h : start_retraining fs now s.ts req = .started ts') :
      Step s { ts := ts', queued := s.queued + 1, executing := s.executing }
  | workerBegin (now : ℕ) (s : Sys)
      (hq : 0 < s.queued) (hx : s.executing = false) :
      Step s { ts := workerBeginState now s.ts, queued := s.queued - 1,
               executing := true }
  | setWarnings (ws : List String) (s : Sys) (hx : s.executing = true) :
      Step s { s with ts := setWarningsState ws s.ts }
  | epochEnd (e : ℕ) (m : EpochM) (s : Sys) (hx : s.executing = true) :
      Step s { s with ts := epochEndState e m s.ts }
  | workerDone (now : ℕ) (wp : String) (s : Sys) (hx : s.executing = true) :
      Step s { ts := workerDoneState now wp s.ts, queued := s.queued,
               executing := false }
  | workerFail (now : ℕ) (msg : String) (s : Sys) (hx : s.executing = true) :
      Step s { ts := workerFailState now msg s.ts, queued := s.queued,
               executing := false }
  | stop (now : ℕ) (s : Sys) (ts' : TrainingState)
      (h : stop_retraining now s.ts = some ts') :
      Step s { s with ts := ts' }

/-- States reachable from process start. -/
inductive Reach : Sys → Prop where
  | init : Reach sysInit
  | step {s s' : Sys} : Reach s → Step s s' → Reach s'

/-! ## The SSE progress stream
(`stream_training_logs.event_generator`, fastapi_server.py lines 1601-1648). -/

/-- The JSON payload of one SSE event (lines 1622-1630). -/
structure StreamPayload where
  status : JStatus
  current_epoch : ℕ
  total_epochs : ℕ
  latest_metric : Option EpochM
  weights_path : Option String
  error : Option String
  warnings : List String
deriving Repr, DecidableEq

/-- The test `status in ["done", "error"]` (lines 1620 and 1636). -/
def terminalDE (s : JStatus) : Bool :=
  match s with
  | .done => true
  | .error => true
  | _ => false

/-- Result of one iteration of the polling loop: break on disconnect,
emit-then-break on done/error, or keep polling after `sleepSeconds`. -/
inductive StreamStep where
  | disconnected
  | finished (payload : StreamPayload)
  | polled (payload : Option StreamPayload) (lastEpoch : ℤ) (sleepSeconds : ℕ)
deriving Repr, DecidableEq

/-- The payload built from a state snapshot (lines 1622-1630);
`metrics[-1] if metrics else None` is the last metric entry. -/
def mkPayload (st : TrainingState) : StreamPayload :=
  { status := st.status, current_epoch := st.current_epoch,
    total_epochs := st.total_epochs, latest_metric := st.metrics.getLast?,
    weights_path := st.weights_path, error := st.error,
    warnings := st.warnings }

/-- One iteration of the generator loop (lines 1606-1641): check the
disconnect first, emit when the epoch changed or the status is done/error,
break when the status is done/error, else sleep 2 seconds. -/
def stream_iteration (connected : Bool) (st : TrainingState)
    (lastEpoch : ℤ) : StreamStep :=
  if !connected then .disconnected
  else
    let sendUpdate := (st.current_epoch : ℤ) ≠ lastEpoch ∨ terminalDE st.status
    if terminalDE st.status then .finished (mkPayload st)
    else if sendUpdate then .polled (some (mkPayload st)) st.current_epoch 2
    else .polled none lastEpoch 2

/-- Whether an iteration ends the stream. -/
def StreamStep.ends : StreamStep → Bool
  | .disconnected => true
  | .finished _ => true
  | .polled _ _ _ => false

/-- The sleep before the next poll, if the stream continues. -/
def StreamStep.sleep : StreamStep → Option ℕ
  | .polled _ _ s => some s
  | _ => none

/-- The generator run against a finite schedule of observations
(connection status and state snapshot at each 2-second poll): the emitted
payloads and whether the stream closed within the schedule. -/
def stream_run : List (Bool × TrainingState) → ℤ →
    List StreamPayload × Bool
  | [], _ => ([], false)
  | (c, st) :: rest, lastEpoch =>
    match stream_iteration c st lastEpoch with
    | .disconnected => ([], true)
    | .finished p => ([p], true)
    | .polled p l _ =>
      let r := stream_run rest l
      (p.toList ++ r.1, r.2)

/-! ## Model registry (`/tools/models/select`, fastapi_server.py lines
1715-1825). Canonical absolute paths are component lists; `Path.resolve`
is an oracle whose result is part of the request model. -/

/-- Rendering of an absolute path from components, POSIX style. -/
def renderPath (comps : List String) : List Char :=
  comps.foldl (fun acc c => acc ++ '/' :: c.data) []

/-- The two whitelisted directories, resolved against the working
directory (lines 1732-1735). -/
def allowedDirs (cwd : List String) : List (List String) :=
  [cwd ++ ["weights", "updated_defect"], cwd ++ ["weights", "defects"]]

/-- The security check of lines 1738-1741:
`str(resolved_path).startswith(str(allowed_dir))` for either directory —
a textual prefix test on the rendered paths. -/
def is_allowed (cwd resolved : List String) : Bool :=
  (allowedDirs cwd).any (fun d => (renderPath d).isPrefixOf (renderPath resolved))

/-- The spec's notion: `resolved` names a file strictly inside `dir`
(component-wise descent). -/
def isDescendant (dir p : List String) : Bool :=
  dir ≠ p ∧ dir.isPrefixOf p

/-- A `/tools/models/select` request together with the filesystem answers
the handler observes for it. -/
structure SelectReq where
  pathStr : String
  name : String
  suffix : String
  resolved : List String
  pathExists : Bool
deriving Repr, DecidableEq

/-- The `active_model_info` record (lines 201-210 and 1788-1794). -/
structure ActiveInfo where
  name : String
  path : String
  dir : String
  loaded : Bool
  selected_at : Option ℕ
deriving Repr, DecidableEq

/-- The mutable model state touched by `select_model`: the loaded
Classifier instance (`detector.defect_model`, identified by its weights
path), its path attribute, and the active-model record. -/
structure ModelState where
  defect_model : Option String
  defect_model_path : String
  active : ActiveInfo
deriving Repr, DecidableEq

/-- Outcome of `select_model`. -/
inductive SelectOutcome where
  | securityError (msg : String)
  | notFound (msg : String)
  | badExtension (msg : String)
  | loadFailed (msg : String)
  | selected (info : ActiveInfo)
deriving Repr, DecidableEq

/-- Endpoint `select_model` (lines 1715-1825). Validation order follows the code:
whitelist prefix test on the resolved path, existence, `.pt` extension;
then the current model is unloaded, and only afterwards the new weights
are loaded (`loadOk` is the oracle for `YOLO(path)` succeeding). -/
def select_model (cwd : List String) (req : SelectReq) (loadOk : Bool)
    (now : ℕ) (st : ModelState) : SelectOutcome × ModelState :=
  if !is_allowed cwd req.resolved then
    (.securityError "Invalid model path. Must be in weights/updated_defect/ or weights/defects/", st)
  else if !req.pathExists then
    (.notFound "Model file not found", st)
  else if !strEq req.suffix ".pt" then
    (.badExtension "Model file must have .pt extension", st)
  else
    let st1 : ModelState := { st with defect_model := none }
    if loadOk then
      let dirName := if strContains req.pathStr "updated_defect"
                     then "updated_defect" else "defects"
      let info : ActiveInfo :=
        { name := req.name, path := req.pathStr, dir := dirName,
          loaded := true, selected_at := some now }
      (.selected info,
       { defect_model := some req.pathStr, defect_model_path := req.pathStr,
         active := info })
    else
      (.loadFailed "Failed to load model", st1)

/-- The checks before the load attempt all pass. -/
def select_checks_pass (cwd : List String) (req : SelectReq) : Bool :=
  is_allowed cwd req.resolved && req.pathExists && strEq req.suffix ".pt"

/-! ## Claim C10: detections sorted by confidence -/

/-- The sort performed at the end of `_detect_defects` leaves its output
pairwise non-increasing in confidence. -/
theorem sort_defects_sorted (ds : List Defect) :
    List.Pairwise confDesc (sort_defects ds) :=
  List.sorted_insertionSort confDesc ds

/-- C10: the detections list of every Stage-2 result, and hence of every
returned Verdict, is sorted by confidence in non-increasing order. -/
theorem c10_detections_sorted :
    (∀ (modelLoaded : Bool) (results : List RawDetection),
       List.Pairwise (fun a b : Defect => b.confidence ≤ a.confidence)
         (detect_defects modelLoaded results)) ∧
    (∀ (width height : ℤ) (tl dl : Bool) (rs1 rs2 : List RawDetection),
       List.Pairwise (fun a b : Defect => b.confidence ≤ a.confidence)
         (detect_defects_two_stage width height tl dl rs1 rs2).detections) := by
  have hbase : ∀ (ml : Bool) (rs : List RawDetection),
      List.Pairwise confDesc (detect_defects ml rs) := by
    intro ml rs
    unfold detect_defects
    cases ml with
    | false => simp
    | true => simpa using sort_defects_sorted (build_defects 0 rs)
  refine ⟨hbase, ?_⟩
  intro width height tl dl rs1 rs2
  unfold detect_defects_two_stage
  dsimp only
  split
  · exact hbase dl rs2
  · exact List.Pairwise.nil

/-! ## Claim C6: stream termination -/

/-- A job record as it stands right after `stop_retraining` marked a
running job stopped. -/
def stoppedStreamState : TrainingState :=
  { status := .stopped, started_at := some 10, finished_at := some 20,
    current_epoch := 3, total_epochs := 50, metrics := [],
    weights_path := none, error := some "Training stopped by user",
    warnings := [], config := none }

/-- C6 counterexample: with a connected consumer and the job status equal
to `stopped` — a terminal value — the polling loop does not terminate: it
keeps emitting/sleeping for the whole schedule, contradicting the claim
that the stream terminates as soon as the status is any terminal value. -/
theorem c6_counterexample :
    stoppedStreamState.status = .stopped ∧
    (stream_run [(true, stoppedStreamState), (true, stoppedStreamState)]
        (-1)).2 = false := by
  exact ⟨rfl, rfl⟩

/-- C6 (amended): the stream terminates exactly when the consumer
disconnects (checked first, on every iteration) or the status is `done` or
`error` — not on `stopped`; while it continues, each iteration sleeps the
fixed 2-second interval. -/
theorem c6_amended :
    (∀ (sched : List (Bool × TrainingState)) (lastEpoch : ℤ),
       (stream_run sched lastEpoch).2
         = sched.any (fun p => !p.1 || terminalDE p.2.status)) ∧
    (∀ (c : Bool) (st : TrainingState) (l : ℤ),
       (stream_iteration c st l).ends = (!c || terminalDE st.status)) ∧
    (∀ (c : Bool) (st : TrainingState) (l : ℤ),
       (stream_iteration c st l).sleep
         = if !c || terminalDE st.status then none else some 2) := by
  have hiter : ∀ (c : Bool) (st : TrainingState) (l : ℤ),
      (stream_iteration c st l).ends = (!c || terminalDE st.status) := by
    intro c st l
    cases c with
    | false => rfl
    | true =>
      by_cases ht : terminalDE st.status
      · simp [stream_iteration, ht, StreamStep.ends]
      · simp only [stream_iteration, ht, Bool.not_true, Bool.false_or]
        simp only [if_neg (by simp : ¬(false = true))]
        split
        · simp [StreamStep.ends, ht]
        · simp [StreamStep.ends, ht]
  refine ⟨?_, hiter, ?_⟩
  · intro sched
    induction sched with
    | nil => intro l; rfl
    | cons p rest ih =>
      intro l
      obtain ⟨c, st⟩ := p
      cases c with
      | false => simp [stream_run, stream_iteration]
      | true =>
        by_cases ht : terminalDE st.status
        · simp [stream_run, stream_iteration, ht]
        · simp only [stream_run, stream_iteration, Bool.not_true,
            if_neg (by simp : ¬(false = true))]
          rw [if_neg ht]
          by_cases hs : ((st.current_epoch : ℤ) ≠ l ∨ terminalDE st.status = true)
          · rw [if_pos hs]
            simpa [ht] using ih st.current_epoch
          · rw [if_neg hs]
            simpa [ht] using ih l
  · intro c st l
    cases c with
    | false => rfl
    | true =>
      by_cases ht : terminalDE st.status
      · simp [stream_iteration, ht, StreamStep.sleep]
      · simp only [stream_iteration, ht, Bool.not_true, Bool.false_or]
        simp only [if_neg (by simp : ¬(false = true))]
        split
        · simp [StreamStep.sleep, ht]
        · simp [StreamStep.sleep, ht]

/-! ## Claims C4 and C5: model selection -/

/-- A working directory for concrete registry scenarios. -/
def cwd0 : List String := ["srv", "app"]

/-- A model state with the base defect model loaded. -/
def mState0 : ModelState :=
  { defect_model := some "weights/defects/best.pt",
    defect_model_path := "weights/defects/best.pt",
    active := { name := "best.pt", path := "weights/defects/best.pt",
                dir := "defects", loaded := true, selected_at := none } }

/-- A request whose resolved path lies in a sibling directory
`weights/defectsBackup` — outside both whitelisted directories, but whose
rendered absolute path has the rendered `weights/defects` as a textual
prefix. -/
def reqEvil : SelectReq :=
  { pathStr := "weights/defectsBackup/evil.pt", name := "evil.pt",
    suffix := ".pt",
    resolved := ["srv", "app", "weights", "defectsBackup", "evil.pt"],
    pathExists := true }

/-- A valid request for a retrained model inside the whitelist. -/
def reqGood : SelectReq :=
  { pathStr := "weights/updated_defect/weights_1.pt", name := "weights_1.pt",
    suffix := ".pt",
    resolved := ["srv", "app", "weights", "updated_defect", "weights_1.pt"],
    pathExists := true }

/-- C4: the whitelist test accepts and loads an existing `.pt` file that is
not a descendant of either whitelisted directory, because the check is a
textual `startswith` on the rendered paths: `weights/defectsBackup/evil.pt`
passes the `weights/defects` prefix test.  This contradicts the endpoint's
own documentation ("Only allows paths within weights/updated_defect/ or
weights/defects/"). -/
theorem c4_whitelist_prefix_bug :
    ((allowedDirs cwd0).all (fun d => !(isDescendant d reqEvil.resolved))) = true ∧
    is_allowed cwd0 reqEvil.resolved = true ∧
    (select_model cwd0 reqEvil true 7 mState0).1 =
      .selected { name := "evil.pt", path := "weights/defectsBackup/evil.pt",
                  dir := "defects", loaded := true, selected_at := some 7 } ∧
    (select_model cwd0 reqEvil true 7 mState0).2.defect_model =
      some "weights/defectsBackup/evil.pt" := by
  refine ⟨by decide, by decide, rfl, rfl⟩

/-- C5 counterexample: when loading the newly selected weights fails, the
`ActiveModel` record is indeed left unchanged, but the previously loaded
Classifier instance does not remain loaded: it was deleted before the load
attempt, so `detector.defect_model` is `None` afterwards. -/
theorem c5_counterexample :
    mState0.defect_model = some "weights/defects/best.pt" ∧
    (select_model cwd0 reqGood false 5 mState0).1 =
      .loadFailed "Failed to load model" ∧
    (select_model cwd0 reqGood false 5 mState0).2.active = mState0.active ∧
    (select_model cwd0 reqGood false 5 mState0).2.defect_model = none := by
  refine ⟨rfl, rfl, rfl, rfl⟩

/-- C5 (amended): model selection is not atomic on failure.  If loading the
new weights fails, the ActiveModel record is left unchanged, but the
previously loaded Classifier instance has already been unloaded (whenever
the request passed validation), leaving no model loaded for Stage-2
inference. -/
theorem c5_amended (cwd : List String) (req : SelectReq) (now : ℕ)
    (st : ModelState) :
    (select_model cwd req false now st).2.active = st.active ∧
    (select_model cwd req false now st).2.defect_model =
      (if select_checks_pass cwd req then none else st.defect_model) := by
  unfold select_model select_checks_pass
  cases h1 : is_allowed cwd req.resolved with
  | false => simp [h1]
  | true =>
    cases h2 : req.pathExists with
    | false => simp [h1, h2]
    | true =>
      cases h3 : strEq req.suffix ".pt" with
      | false => simp [h1, h2, h3]
      | true => simp [h1, h2, h3]

/-! ## Claim C7: start() preconditions -/

/-- C7: a start while a job is running is rejected with a 409 conflict; a
start with an empty or missing `new_dataset/images` corpus is rejected with
a 400 precondition error and the job record is left unchanged (so an idle
status stays idle); after a job reached `done`, a start with valid datasets
succeeds and hands the worker a record whose `current_epoch` is reset
to 0. -/
theorem c7_start_preconditions (fs : FS) (now : ℕ) (st : TrainingState)
    (req : TrainingRequest) :
    (st.status = .running →
       start_retraining fs now st req =
         .rejected 409 "Training is already in progress. Stop the current training first or wait for it to complete.") ∧
    (st.status ≠ .running →
       (fs.newDatasetExists = false ∨ fs.newImagesNonempty = false) →
       (∃ d, start_retraining fs now st req = .rejected 400 d) ∧
       stateAfterStart st (start_retraining fs now st req) = st) ∧
    (st.status = .done → fs.newDatasetExists = true →
       fs.baseDatasetExists = true → fs.newImagesNonempty = true →
       fs.newLabelsNonempty = true →
       ∃ ts', start_retraining fs now st req = .started ts' ∧
         ts'.current_epoch = 0 ∧ ts'.status = .idle) := by
  refine ⟨?_, ?_, ?_⟩
  · intro h
    unfold start_retraining
    rw [if_pos h]
  · intro hrun hempty
    unfold start_retraining
    rw [if_neg hrun]
    rcases hempty with h | h
    · rw [h]
      exact ⟨⟨_, rfl⟩, rfl⟩
    · cases hnd : fs.newDatasetExists with
      | false => exact ⟨⟨_, rfl⟩, rfl⟩
      | true =>
        cases hbd : fs.baseDatasetExists with
        | false => exact ⟨⟨_, rfl⟩, rfl⟩
        | true => rw [h]; exact ⟨⟨_, rfl⟩, rfl⟩
  · intro hdone h1 h2 h3 h4
    unfold start_retraining
    rw [if_neg (by rw [hdone]; exact fun h => JStatus.noConfusion h), h1, h2, h3, h4]
    exact ⟨_, rfl, rfl, rfl⟩

/-- The default training request (`TrainingRequest` field defaults). -/
def req0 : TrainingRequest :=
  { epochs := 50, batch_size := 16, learning_rate := mkRat 1 1000,
    image_size := 640, use_gpu := true, seed := some 42,
    base_model_path := none, output_dir := none }

/-- A filesystem where `new_dataset/images` is empty. -/
def fsEmptyImages : FS :=
  { newDatasetExists := true, baseDatasetExists := true,
    newImagesNonempty := false, newLabelsNonempty := true }

/-- C7 witness: the empty-corpus scenario at a concrete input — the start
is rejected with a 400 and the idle job record is unchanged. -/
theorem c7_start_preconditions_witness :
    ((∃ d, start_retraining fsEmptyImages 3 initialTrainingState req0 =
        .rejected 400 d) ∧
     stateAfterStart initialTrainingState
        (start_retraining fsEmptyImages 3 initialTrainingState req0) =
        initialTrainingState) ∧
    initialTrainingState.status = .idle := by
  refine ⟨(c7_start_preconditions fsEmptyImages 3 initialTrainingState req0).2.1
            (by decide) (Or.inr rfl), rfl⟩

/-! ## Claim C3: severity computation -/

/-- Rank of a severity level (higher is worse), to express monotonicity. -/
def levelRank : SeverityLevel → ℕ
  | .NO_TRANSFORMER => 0
  | .NORMAL => 1
  | .LOW => 2
  | .MEDIUM => 3
  | .HIGH => 4
  | .CRITICAL => 5

/-- The accumulator loop computes the sum of per-detection severities. -/
theorem totalSeverity_eq_sum (ds : List Defect) :
    totalSeverity ds =
      (ds.map (fun d => d.confidence * severityWeight d.class_name)).sum := by
  unfold totalSeverity
  have key : ∀ (l : List Defect) (a : ℚ),
      l.foldl (fun acc d => acc + d.confidence * severityWeight d.class_name) a
        = a + (l.map (fun d => d.confidence * severityWeight d.class_name)).sum := by
    intro l
    induction l with
    | nil => intro a; simp
    | cons d l ih =>
      intro a
      simp only [List.foldl_cons, List.map_cons, List.sum_cons, ih]
      ring
  simpa using key ds 0

/-- C3: the verdict's severity score is the mean of per-detection
severities (confidence times the class weight: 1 for names containing
"Overload", 0.8 for "Loose Joint", 0.5 otherwise; 0 with no detections),
and the severity level is the monotone step function: NO_TRANSFORMER when
no transformer was located (in which case the detections list is empty),
NORMAL with a located transformer and zero detections, and otherwise
CRITICAL above 0.8, HIGH above 0.5, MEDIUM above 0.3, else LOW. -/
theorem c3_severity (width height : ℤ) (tl dl : Bool)
    (rs1 rs2 : List RawDetection) :
    (detect_defects_two_stage width height tl dl rs1 rs2).severity_score =
      (if (detect_defects_two_stage width height tl dl rs1 rs2).detections.length = 0
       then 0
       else ((detect_defects_two_stage width height tl dl rs1 rs2).detections.map
               (fun d => d.confidence * severityWeight d.class_name)).sum
            / ((detect_defects_two_stage width height tl dl rs1 rs2).detections.length : ℚ)) ∧
    (detect_defects_two_stage width height tl dl rs1 rs2).severity_level =
      (if !(detect_defects_two_stage width height tl dl rs1 rs2).stage1.isDetected
       then .NO_TRANSFORMER
       else if (detect_defects_two_stage width height tl dl rs1 rs2).detections.length = 0
       then .NORMAL
       else severityLevelOfScore
              (detect_defects_two_stage width height tl dl rs1 rs2).severity_score) ∧
    ((detect_defects_two_stage width height tl dl rs1 rs2).stage1.isDetected = false →
       (detect_defects_two_stage width height tl dl rs1 rs2).detections = []) ∧
    (∀ s t : ℚ, s ≤ t →
       levelRank (severityLevelOfScore s) ≤ levelRank (severityLevelOfScore t)) ∧
    defect_classes.map severityWeight = [1, mkRat 4 5, mkRat 4 5, 1, 1, 1] := by
  refine ⟨?_, ?_, ?_, ?_, by decide⟩
  · unfold detect_defects_two_stage severityScore
    dsimp only
    rcases hd : (if (segment_transformer width height tl rs1).isDetected = true
        then detect_defects dl rs2 else []) with _ | ⟨d, ds⟩
    · simp
    · simp [totalSeverity_eq_sum]
  · rfl
  · intro hdet
    unfold detect_defects_two_stage at hdet ⊢
    dsimp only at hdet ⊢
    simp only [hdet, Bool.false_eq_true, if_false]
  · intro s t hst
    unfold severityLevelOfScore
    by_cases h1 : mkRat 4 5 < s
    · rw [if_pos h1, if_pos (lt_of_lt_of_le h1 hst)]
    · rw [if_neg h1]
      by_cases h2 : mkRat 1 2 < s
      · rw [if_pos h2]
        by_cases h1t : mkRat 4 5 < t
        · simp [h1t, levelRank]
        · rw [if_neg h1t, if_pos (lt_of_lt_of_le h2 hst)]
      · rw [if_neg h2]
        by_cases h3 : mkRat 3 10 < s
        · rw [if_pos h3]
          by_cases h1t : mkRat 4 5 < t
          · simp [h1t, levelRank]
          · rw [if_neg h1t]
            by_cases h2t : mkRat 1 2 < t
            · simp [h2t, levelRank]
            · rw [if_neg h2t, if_pos (lt_of_lt_of_le h3 hst)]
        · rw [if_neg h3]
          by_cases h1t : mkRat 4 5 < t
          · simp [h1t, levelRank]
          · rw [if_neg h1t]
            by_cases h2t : mkRat 1 2 < t
            · simp [h2t, levelRank]
            · rw [if_neg h2t]
              by_cases h3t : mkRat 3 10 < t
              · simp [h3t, levelRank]
              · rw [if_neg h3t]

/-- C3 witness: concrete evaluations through the theorem — with no located
transformer the level is NO_TRANSFORMER and detections are empty, and the
step function is monotone between 0.25 and 0.9. -/
theorem c3_severity_witness :
    (detect_defects_two_stage 100 100 false true [] []).detections = [] ∧
    levelRank (severityLevelOfScore (mkRat 1 4)) ≤
      levelRank (severityLevelOfScore (mkRat 9 10)) := by
  have h := c3_severity 100 100 false true [] []
  exact ⟨h.2.2.1 rfl, h.2.2.2.1 (mkRat 1 4) (mkRat 9 10) (by decide)⟩

/-! ## Claim C1: coordinate re-projection -/

/-- Python's `np.argmax` returns an element of the list it scanned. -/
theorem argmaxConf_mem {l : List RawDetection} {b : RawDetection}
    (h : argmaxConf l = some b) : b ∈ l := by
  induction l with
  | nil => simp [argmaxConf] at h
  | cons r rs ih =>
    unfold argmaxConf at h
    rcases hm : argmaxConf rs with _ | b'
    · rw [hm] at h
      dsimp only at h
      injection h with h
      exact h ▸ List.mem_cons_self r rs
    · rw [hm] at h
      dsimp only at h
      by_cases hc : b'.conf ≤ r.conf
      · rw [if_pos hc] at h
        injection h with h
        exact h ▸ List.mem_cons_self r rs
      · rw [if_neg hc] at h
        injection h with h
        exact List.mem_cons_of_mem r (ih (h ▸ hm))

/-- Inversion of a detected stage-1 result: the winning detection is a
member of the localizer output and the crop box is its padded, clamped
box. -/
theorem segment_transformer_detected {w h : ℤ} {tl : Bool}
    {rs : List RawDetection} {conf : ℚ} {bb cb : PixBox} {area : ℤ}
    (hs : segment_transformer w h tl rs = .detected conf bb cb area) :
    ∃ best ∈ rs, argmaxConf rs = some best ∧ bb = best.box ∧
      cb = ⟨max 0 (best.box.x1 - 20), max 0 (best.box.y1 - 20),
            min w (best.box.x2 + 20), min h (best.box.y2 + 20)⟩ := by
  unfold segment_transformer at hs
  cases tl with
  | false => simp at hs
  | true =>
    simp only [Bool.not_true, Bool.false_eq_true, if_false] at hs
    rcases hm : argmaxConf rs with _ | best
    · rw [hm] at hs
      dsimp only at hs
      exact absurd hs (by simp)
    · rw [hm] at hs
      dsimp only at hs
      injection hs with h1 h2 h3 h4
      exact ⟨best, argmaxConf_mem hm, rfl, h2.symm, h3.symm⟩

/-- Every defect built by the enumerate loop carries the box of some raw
detection. -/
theorem build_defects_mem {ds : List RawDetection} {d : Defect} :
    ∀ {i : ℕ}, d ∈ build_defects i ds → ∃ r ∈ ds, ∃ j, d = mkDefect j r := by
  induction ds with
  | nil => intro i h; simp [build_defects] at h
  | cons r rs ih =>
    intro i h
    simp only [build_defects] at h
    rcases List.mem_cons.mp h with h | h
    · exact ⟨r, List.mem_cons_self r rs, i, h⟩
    · obtain ⟨r', hr', j, hj⟩ := ih h
      exact ⟨r', List.mem_cons_of_mem r hr', j, hj⟩

/-- Every detection returned by Stage 2 carries the box of some raw
detection of the defect model. -/
theorem detect_defects_mem {dl : Bool} {rs : List RawDetection} {d : Defect}
    (h : d ∈ detect_defects dl rs) : ∃ r ∈ rs, d.bbox = r.box := by
  unfold detect_defects at h
  cases dl with
  | false => simp at h
  | true =>
    simp only [Bool.not_true, Bool.false_eq_true, if_false, sort_defects] at h
    have hperm := (List.perm_insertionSort confDesc (build_defects 0 rs)).mem_iff.mp h
    obtain ⟨r, hr, j, hj⟩ := build_defects_mem hperm
    exact ⟨r, hr, by rw [hj]; rfl⟩

/-- Whether a raw crop-space detection fits inside the padded crop that
stage 1 would compute for these inputs. -/
def withinCrop (width height : ℤ) (tl : Bool) (rs1 : List RawDetection)
    (r : RawDetection) : Bool :=
  match (segment_transformer width height tl rs1).cropBox with
  | some cb => decide (r.box.x2 ≤ cb.x2 - cb.x1) && decide (r.box.y2 ≤ cb.y2 - cb.y1)
  | none => true

/-- The localizer output of the C1 scenario: one transformer at
(50,60)-(120,90) with confidence 0.9 in a 200x100 image. -/
def rs1c : List RawDetection := [⟨0, mkRat 9 10, ⟨50, 60, 120, 90⟩⟩]

/-- The defect-model output of the C1 scenario: one Point Overload F box
at (5,5)-(10,10) in crop space with confidence 0.5. -/
def rs2c : List RawDetection := [⟨3, mkRat 1 2, ⟨5, 5, 10, 10⟩⟩]

/-- The verdict of the C1 scenario. -/
def vC1 : Verdict := detect_defects_two_stage 200 100 true true rs1c rs2c

/-- C1 counterexample: the padded crop starts at (30,40), so the claimed
re-projection of the Stage-2 box (5,5)-(10,10) is (35,45)-(40,50) — and
that is exactly what the overlay draws — but the bbox in the returned
detections list is the unshifted crop-space box (5,5)-(10,10), so the
returned detections are not re-projected by adding the crop offset. -/
theorem c1_counterexample :
    vC1.stage1.cropBox = some ⟨30, 40, 140, 100⟩ ∧
    vC1.detections.map (fun d => d.bbox) = [⟨5, 5, 10, 10⟩] ∧
    overlay_boxes vC1.stage1 vC1.detections = [⟨35, 45, 40, 50⟩] ∧
    vC1.detections.map (fun d => d.bbox) ≠ [⟨35, 45, 40, 50⟩] := by
  refine ⟨rfl, rfl, rfl, by decide⟩

/-- C1 (amended): the returned detections keep the raw crop-space Stage-2
boxes unchanged; only the rendered overlay re-projects them by adding the
padded crop's top-left corner.  Provided the model outputs lie within their
respective frames, both the returned crop-space boxes and the re-projected
overlay boxes lie within [0,width] x [0,height] of the original image. -/
theorem c1_amended (width height : ℤ) (tl dl : Bool)
    (rs1 rs2 : List RawDetection)
    (h1 : ∀ r ∈ rs1, 0 ≤ r.box.x1 ∧ r.box.x1 ≤ r.box.x2 ∧ r.box.x2 ≤ width ∧
                     0 ≤ r.box.y1 ∧ r.box.y1 ≤ r.box.y2 ∧ r.box.y2 ≤ height)
    (h2 : ∀ r ∈ rs2, 0 ≤ r.box.x1 ∧ r.box.x1 ≤ r.box.x2 ∧
                     0 ≤ r.box.y1 ∧ r.box.y1 ≤ r.box.y2)
    (h3 : ∀ r ∈ rs2, withinCrop width height tl rs1 r = true) :
    (∀ d ∈ (detect_defects_two_stage width height tl dl rs1 rs2).detections,
       ∃ r ∈ rs2, d.bbox = r.box) ∧
    (∀ d ∈ (detect_defects_two_stage width height tl dl rs1 rs2).detections,
       0 ≤ d.bbox.x1 ∧ d.bbox.x1 ≤ d.bbox.x2 ∧ d.bbox.x2 ≤ width ∧
       0 ≤ d.bbox.y1 ∧ d.bbox.y1 ≤ d.bbox.y2 ∧ d.bbox.y2 ≤ height) ∧
    (∀ b ∈ overlay_boxes
         (detect_defects_two_stage width height tl dl rs1 rs2).stage1
         (detect_defects_two_stage width height tl dl rs1 rs2).detections,
       0 ≤ b.x1 ∧ b.x1 ≤ b.x2 ∧ b.x2 ≤ width ∧
       0 ≤ b.y1 ∧ b.y1 ≤ b.y2 ∧ b.y2 ≤ height) := by
  cases hs1 : segment_transformer width height tl rs1 with
  | modelNotLoaded =>
    refine ⟨?_, ?_, ?_⟩
    · intro d hd
      simp only [detect_defects_two_stage, hs1] at hd
      simp [Stage1Result.isDetected] at hd
    · intro d hd
      simp only [detect_defects_two_stage, hs1] at hd
      simp [Stage1Result.isDetected] at hd
    · intro b hb
      simp only [detect_defects_two_stage, hs1] at hb
      simp [Stage1Result.isDetected, overlay_boxes] at hb
  | noTransformer =>
    refine ⟨?_, ?_, ?_⟩
    · intro d hd
      simp only [detect_defects_two_stage, hs1] at hd
      simp [Stage1Result.isDetected] at hd
    · intro d hd
      simp only [detect_defects_two_stage, hs1] at hd
      simp [Stage1Result.isDetected] at hd
    · intro b hb
      simp only [detect_defects_two_stage, hs1] at hb
      simp [Stage1Result.isDetected, overlay_boxes] at hb
  | detected conf bb cb area =>
    obtain ⟨best, hbest, hargmax, hbb, hcb⟩ := segment_transformer_detected hs1
    obtain ⟨hx0, hx12, hxw, hy0, hy12, hyh⟩ := h1 best hbest
    have hcrop : 0 ≤ cb.x1 ∧ cb.x1 ≤ cb.x2 ∧ cb.x2 ≤ width ∧
        0 ≤ cb.y1 ∧ cb.y1 ≤ cb.y2 ∧ cb.y2 ≤ height := by
      rw [hcb]
      refine ⟨?_, ?_, ?_, ?_, ?_, ?_⟩ <;> dsimp only <;> omega
    have hmem : ∀ d ∈ (detect_defects_two_stage width height tl dl rs1 rs2).detections,
        ∃ r ∈ rs2, d.bbox = r.box := by
      intro d hd
      simp only [detect_defects_two_stage, hs1, Stage1Result.isDetected,
        if_true] at hd
      exact detect_defects_mem hd
    have hinside : ∀ r ∈ rs2,
        0 ≤ r.box.x1 ∧ r.box.x1 ≤ r.box.x2 ∧ r.box.x2 ≤ cb.x2 - cb.x1 ∧
        0 ≤ r.box.y1 ∧ r.box.y1 ≤ r.box.y2 ∧ r.box.y2 ≤ cb.y2 - cb.y1 := by
      intro r hr
      obtain ⟨ha, hb2, hc, hd2⟩ := h2 r hr
      have hw := h3 r hr
      simp only [withinCrop, hs1, Stage1Result.cropBox, Bool.and_eq_true,
        decide_eq_true_eq] at hw
      exact ⟨ha, hb2, hw.1, hc, hd2, hw.2⟩
    refine ⟨hmem, ?_, ?_⟩
    · intro d hd
      obtain ⟨r, hr, hdr⟩ := hmem d hd
      obtain ⟨ha, hb2, hc, hd2, he, hf⟩ := hinside r hr
      obtain ⟨c1, c2, c3, c4, c5, c6⟩ := hcrop
      rw [hdr]
      exact ⟨ha, hb2, by omega, hd2, he, by omega⟩
    · intro b hb'
      simp only [detect_defects_two_stage, hs1, Stage1Result.isDetected,
        if_true, overlay_boxes, List.mem_map] at hb'
      obtain ⟨d, hd, hbd⟩ := hb'
      obtain ⟨r, hr, hdr⟩ := detect_defects_mem hd
      obtain ⟨ha, hb2, hc, hd2, he, hf⟩ := hinside r hr
      obtain ⟨c1, c2, c3, c4, c5, c6⟩ := hcrop
      subst hbd
      refine ⟨?_, ?_, ?_, ?_, ?_, ?_⟩ <;> dsimp only <;> rw [hdr] <;> omega

/-- C1 witness: the amended claim applied to the concrete C1 scenario —
the single overlay box (35,45)-(40,50) of the scenario verdict lies within
the 200x100 image. -/
theorem c1_amended_witness :
    0 ≤ (35:ℤ) ∧ (35:ℤ) ≤ 40 ∧ (40:ℤ) ≤ 200 ∧
    0 ≤ (45:ℤ) ∧ (45:ℤ) ≤ 50 ∧ (50:ℤ) ≤ 100 :=
  (c1_amended 200 100 true true rs1c rs2c
    (by decide) (by decide) (by decide)).2.2 ⟨35, 45, 40, 50⟩ (by decide)

/-! ## Claim C2: training-status transitions -/

/-- The transitions the code can actually perform on `training_state["status"]`:
the claimed `idle -> running -> terminal` chain, plus the extra transitions
forced by the unguarded writes (see `c2_amended`). -/
def allowedStatusTrans (a b : JStatus) : Prop :=
  a = b ∨
  (a ≠ .running ∧ b = .idle) ∨
  ((a = .idle ∨ a = .done ∨ a = .error) ∧ b = .running) ∨
  (a = .running ∧ b = .stopped) ∨
  ((a = .running ∨ a = .stopped ∨ a = .idle) ∧ (b = .done ∨ b = .error))

instance (a b : JStatus) : Decidable (allowedStatusTrans a b) := by
  unfold allowedStatusTrans; infer_instance

/-- Invariant tying the worker's execution flag to the status values that
can coexist with it. -/
def SysInv (s : Sys) : Prop :=
  (s.executing = true →
     s.ts.status = .running ∨ s.ts.status = .stopped ∨ s.ts.status = .idle) ∧
  (s.executing = false →
     s.ts.status = .idle ∨ s.ts.status = .done ∨ s.ts.status = .error)

/-- A successful start implies the job was not running, and hands over a
reset record with status `idle`. -/
theorem start_retraining_started {fs : FS} {now : ℕ} {st : TrainingState}
    {req : TrainingRequest} {ts' : TrainingState}
    (h : start_retraining fs now st req = .started ts') :
    st.status ≠ .running ∧ ts'.status = .idle ∧ ts'.current_epoch = 0 := by
  unfold start_retraining at h
  by_cases h0 : st.status = .running
  · rw [if_pos h0] at h
    exact absurd h (by simp)
  · rw [if_neg h0] at h
    refine ⟨h0, ?_⟩
    cases hnd : fs.newDatasetExists <;> rw [hnd] at h
    · exact absurd h (by simp)
    · cases hbd : fs.baseDatasetExists <;> rw [hbd] at h
      · exact absurd h (by simp)
      · cases hni : fs.newImagesNonempty <;> rw [hni] at h
        · exact absurd h (by simp)
        · cases hnl : fs.newLabelsNonempty <;> rw [hnl] at h
          · exact absurd h (by simp)
          · injection h with h
            rw [← h]
            exact ⟨rfl, rfl⟩

/-- A stop implies the job was running, and marks the record stopped. -/
theorem stop_retraining_some {now : ℕ} {st ts' : TrainingState}
    (h : stop_retraining now st = some ts') :
    st.status = .running ∧ ts'.status = .stopped := by
  unfold stop_retraining at h
  by_cases h0 : st.status = .running
  · rw [if_pos h0] at h
    injection h with h
    exact ⟨h0, by rw [← h]⟩
  · rw [if_neg h0] at h
    exact absurd h (by simp)

/-- Every reachable process state satisfies the flag/status invariant. -/
theorem reach_inv {s : Sys} (hr : Reach s) : SysInv s := by
  induction hr with
  | init => exact ⟨fun h => absurd h (by decide), fun _ => Or.inl rfl⟩
  | step hr' hstep ih =>
    cases hstep with
    | start fs now req s ts' h =>
      obtain ⟨-, hidle, -⟩ := start_retraining_started h
      exact ⟨fun _ => Or.inr (Or.inr hidle), fun _ => Or.inl hidle⟩
    | workerBegin now s hq hx =>
      exact ⟨fun _ => Or.inl rfl, fun h => by simp at h⟩
    | setWarnings ws s hx =>
      refine ⟨fun _ => ih.1 hx, fun h => by rw [hx] at h; exact absurd h (by simp)⟩
    | epochEnd e m s hx =>
      refine ⟨fun _ => ih.1 hx, fun h => by rw [hx] at h; exact absurd h (by simp)⟩
    | workerDone now wp s hx =>
      exact ⟨fun h => by simp at h, fun _ => Or.inr (Or.inl rfl)⟩
    | workerFail now msg s hx =>
      exact ⟨fun h => by simp at h, fun _ => Or.inr (Or.inr rfl)⟩
    | stop now s ts' h =>
      obtain ⟨hrun, hstop⟩ := stop_retraining_some h
      refine ⟨fun _ => Or.inr (Or.inl hstop), fun hf => ?_⟩
      rcases ih.2 hf with h' | h' | h' <;> rw [hrun] at h' <;> exact absurd h' (by simp)

/-- C2 (amended): the status transitions along idle -> running ->
{done, error, stopped}, except that the worker's terminal write is
unguarded — after a stop (possibly followed by a new start) it overwrites
`stopped` or `idle` with `done`/`error` — a start resets any non-running
status to `idle`, and a queued second start lets the next worker move
`done`/`error`/`idle` back to `running`. -/
theorem c2_amended (s s' : Sys) (hr : Reach s) (hstep : Step s s') :
    allowedStatusTrans s.ts.status s'.ts.status := by
  have hinv := reach_inv hr
  cases hstep with
  | start fs now req s ts' h =>
    obtain ⟨hnr, hidle, -⟩ := start_retraining_started h
    exact Or.inr (Or.inl ⟨hnr, hidle⟩)
  | workerBegin now s hq hx =>
    rcases hinv.2 hx with h' | h' | h'
    · exact Or.inr (Or.inr (Or.inl ⟨Or.inl h', rfl⟩))
    · exact Or.inr (Or.inr (Or.inl ⟨Or.inr (Or.inl h'), rfl⟩))
    · exact Or.inr (Or.inr (Or.inl ⟨Or.inr (Or.inr h'), rfl⟩))
  | setWarnings ws s hx => exact Or.inl rfl
  | epochEnd e m s hx => exact Or.inl rfl
  | workerDone now wp s hx =>
    exact Or.inr (Or.inr (Or.inr (Or.inr ⟨hinv.1 hx, Or.inl rfl⟩)))
  | workerFail now msg s hx =>
    exact Or.inr (Or.inr (Or.inr (Or.inr ⟨hinv.1 hx, Or.inr rfl⟩)))
  | stop now s ts' h =>
    obtain ⟨hrun, hstop⟩ := stop_retraining_some h
    exact Or.inr (Or.inr (Or.inr (Or.inl ⟨hrun, hstop⟩)))

/-- The configuration produced by a start with the default request at
clock 0. -/
def cfg0 : TrainConfig :=
  { new_dataset_path := "new_dataset",
    base_dataset_path := "Transformer Defects", temp_dir_stamp := 0,
    base_model_path := "weights/defects/best.pt", epochs := 50,
    batch_size := 16, learning_rate := mkRat 1 1000, image_size := 640,
    use_gpu := true, seed := some 42,
    output_dir := "weights/updated_defect" }

/-- The job record right after the reset performed by a successful start. -/
def resetTS : TrainingState :=
  { status := .idle, started_at := none, finished_at := none,
    current_epoch := 0, total_epochs := 50, metrics := [],
    weights_path := none, error := none, warnings := [],
    config := some cfg0 }

/-- A filesystem with both datasets present and non-empty. -/
def fsOk : FS :=
  { newDatasetExists := true, baseDatasetExists := true,
    newImagesNonempty := true, newLabelsNonempty := true }

/-- The record after the worker began at clock 1. -/
def ts2 : TrainingState := workerBeginState 1 resetTS

/-- The record after a stop at clock 2. -/
def ts3 : TrainingState :=
  { ts2 with status := .stopped, finished_at := some 2,
             error := some "Training stopped by user" }

/-- The process state with a stopped record while the worker still runs. -/
def sys3 : Sys := { ts := ts3, queued := 0, executing := true }

/-- The process state after the still-running worker completed at clock 3:
its unguarded terminal write has overwritten `stopped` with `done`. -/
def sys4 : Sys :=
  { ts := workerDoneState 3 "weights/updated_defect/weights_x.pt" ts3,
    queued := 0, executing := false }

/-- The stop-then-worker-completes trace is reachable. -/
theorem reach_sys3 : Reach sys3 := by
  have h1 : Step sysInit
      { ts := resetTS, queued := sysInit.queued + 1, executing := sysInit.executing } :=
    Step.start fsOk 0 req0 sysInit resetTS (by rfl)
  have h2 : Step { ts := resetTS, queued := 1, executing := false }
      { ts := workerBeginState 1 resetTS, queued := 1 - 1, executing := true } :=
    Step.workerBegin 1 _ (by decide) rfl
  have h3 : Step { ts := ts2, queued := 0, executing := true } sys3 :=
    Step.stop 2 _ ts3 (by rfl)
  exact Reach.step (Reach.step (Reach.step Reach.init h1) h2) h3

/-- The final overwrite is a single legal step of the code. -/
theorem step_sys3_sys4 : Step sys3 sys4 :=
  Step.workerDone 3 "weights/updated_defect/weights_x.pt" sys3 rfl

/-- C2 counterexample: a reachable sequence — start, worker begins, stop,
worker completes — in which the status moves from the terminal value
`stopped` to the different terminal value `done`, which the claim says
never happens. -/
theorem c2_counterexample :
    Reach sys3 ∧ Step sys3 sys4 ∧
    sys3.ts.status = .stopped ∧ sys4.ts.status = .done :=
  ⟨reach_sys3, step_sys3_sys4, rfl, rfl⟩

/-- C2 witness: the amended transition relation applied to the concrete
reachable stop-then-done step. -/
theorem c2_amended_witness :
    allowedStatusTrans JStatus.stopped JStatus.done :=
  c2_amended sys3 sys4 reach_sys3 step_sys3_sys4

/-! ## Claim C8: annotation clipping round-trip -/

/-- Rounding to 6 decimals moves a rational by at most half of 10^-6. -/
theorem abs_round6_sub (q : ℚ) : |round6 q - q| ≤ 1 / 2000000 := by
  have h := abs_sub_round (q * 1000000)
  have heq : round6 q - q = ((round (q * 1000000) : ℚ) - q * 1000000) / 1000000 := by
    unfold round6; ring
  rw [heq, abs_div, abs_of_pos (by norm_num : (0:ℚ) < 1000000), abs_sub_comm]
  rw [div_le_iff₀ (by norm_num : (0:ℚ) < 1000000)]
  calc |q * 1000000 - (round (q * 1000000) : ℚ)| ≤ 1 / 2 := h
    _ = 1 / 2000000 * 1000000 := by norm_num

/-- Triangle bound for the two rounding errors of a center/size pair. -/
theorem abs_comb_le {x y : ℚ} (hx : |x| ≤ 1 / 2000000) (hy : |y| ≤ 1 / 2000000) :
    |x - y / 2| ≤ 3 / 4000000 ∧ |x + y / 2| ≤ 3 / 4000000 := by
  have hy2 : |y / 2| ≤ 1 / 4000000 := by
    rw [abs_div, abs_of_pos (by norm_num : (0:ℚ) < 2)]
    linarith
  constructor
  · have t := abs_add x (-(y / 2))
    rw [abs_neg] at t
    rw [sub_eq_add_neg]
    calc |x + -(y / 2)| ≤ |x| + |y / 2| := t
      _ ≤ 1 / 2000000 + 1 / 4000000 := add_le_add hx hy2
      _ = 3 / 4000000 := by norm_num
  · calc |x + y / 2| ≤ |x| + |y / 2| := abs_add x (y / 2)
      _ ≤ 1 / 2000000 + 1 / 4000000 := add_le_add hx hy2
      _ = 3 / 4000000 := by norm_num

/-- Denormalizing the rounded center/size pair recovers the clipped
endpoints up to `3/4000000` of the frame dimension. -/
theorem round6_denorm_close (W a w : ℚ) (hW : 0 < W) :
    |(round6 ((a + w / 2) / W) - round6 (w / W) / 2) * W - a| ≤ 3 * W / 4000000 ∧
    |(round6 ((a + w / 2) / W) + round6 (w / W) / 2) * W - (a + w)| ≤ 3 * W / 4000000 := by
  have hW0 : W ≠ 0 := ne_of_gt hW
  have hx := abs_round6_sub ((a + w / 2) / W)
  have hy := abs_round6_sub (w / W)
  obtain ⟨hminus, hplus⟩ := abs_comb_le hx hy
  have key1 : (round6 ((a + w / 2) / W) - round6 (w / W) / 2) * W - a
      = ((round6 ((a + w / 2) / W) - (a + w / 2) / W)
          - (round6 (w / W) - w / W) / 2) * W := by
    field_simp
    ring
  have key2 : (round6 ((a + w / 2) / W) + round6 (w / W) / 2) * W - (a + w)
      = ((round6 ((a + w / 2) / W) - (a + w / 2) / W)
          + (round6 (w / W) - w / W) / 2) * W := by
    field_simp
    ring
  constructor
  · rw [key1, abs_mul, abs_of_pos hW]
    calc |(round6 ((a + w / 2) / W) - (a + w / 2) / W)
            - (round6 (w / W) - w / W) / 2| * W
        ≤ 3 / 4000000 * W := mul_le_mul_of_nonneg_right hminus (le_of_lt hW)
      _ = 3 * W / 4000000 := by ring
  · rw [key2, abs_mul, abs_of_pos hW]
    calc |(round6 ((a + w / 2) / W) - (a + w / 2) / W)
            + (round6 (w / W) - w / W) / 2| * W
        ≤ 3 / 4000000 * W := mul_le_mul_of_nonneg_right hplus (le_of_lt hW)
      _ = 3 * W / 4000000 := by ring

/-- The C8 counterexample annotation: box (1,2)-(3,4), entirely inside a
7x7 frame with zero crop offset. -/
def annC8 : Ann := ⟨some 1, some 2, some 3, some 4, some 0, "Point Overload F"⟩

/-- C8 counterexample: with frame size 7 and no offset, the box (1,2,3,4)
is inside the frame, nothing is clipped, yet the denormalized left edge is
999999/1000000, not the original 1 — rounding the normalized values to 6
decimals makes the exact round-trip fail. -/
theorem c8_counterexample :
    convertAnn 0 0 7 7 annC8 =
      some (.byId 0, 142857/500000, 428571/1000000, 142857/500000, 142857/500000) ∧
    ((0:ℚ) < 1 - 0 ∧ (3:ℚ) - 0 < 7 ∧ (0:ℚ) < 2 - 0 ∧ (4:ℚ) - 0 < 7) ∧
    ((142857:ℚ)/500000 - (142857/500000) / 2) * 7 = 999999/1000000 ∧
    ((142857:ℚ)/500000 - (142857/500000) / 2) * 7 + 0 ≠ 1 := by
  refine ⟨?_, by norm_num, by norm_num, by norm_num⟩
  simp only [convertAnn, annC8]
  norm_num [round6, round_eq]

/-- C8 (amended): the conversion drops (without error) annotations entirely
outside the cropped frame, and for every surviving annotation the
denormalized and re-offset box reproduces the offset-adjusted, clipped
original box up to a rounding error of at most `3/4000000` of the frame
dimension per coordinate (the crop offset cancels in the difference, so
these bounds are exactly the re-offset comparison). -/
theorem c8_roundtrip (ox oy W H : ℚ) (hW : 0 < W) (hH : 0 < H) (a : Ann)
    (bx1 by1 bx2 by2 : ℚ)
    (h1 : a.bboxX1 = some bx1) (h2 : a.bboxY1 = some by1)
    (h3 : a.bboxX2 = some bx2) (h4 : a.bboxY2 = some by2) :
    ((bx2 - ox ≤ 0 ∨ by2 - oy ≤ 0 ∨ bx1 - ox ≥ W ∨ by1 - oy ≥ H) →
       convertAnn ox oy W H a = none) ∧
    (∀ ci xc yc wn hn, convertAnn ox oy W H a = some (ci, xc, yc, wn, hn) →
       |(xc - wn / 2) * W - max 0 (bx1 - ox)| ≤ 3 * W / 4000000 ∧
       |(xc + wn / 2) * W - min W (bx2 - ox)| ≤ 3 * W / 4000000 ∧
       |(yc - hn / 2) * H - max 0 (by1 - oy)| ≤ 3 * H / 4000000 ∧
       |(yc + hn / 2) * H - min H (by2 - oy)| ≤ 3 * H / 4000000) := by
  constructor
  · intro hout
    unfold convertAnn
    rw [h1, h2, h3, h4]
    dsimp only
    rw [if_pos hout]
  · intro ci xc yc wn hn hc
    unfold convertAnn at hc
    rw [h1, h2, h3, h4] at hc
    dsimp only at hc
    by_cases hout : (bx2 - ox ≤ 0 ∨ by2 - oy ≤ 0 ∨ bx1 - ox ≥ W ∨ by1 - oy ≥ H)
    · rw [if_pos hout] at hc
      exact absurd hc (by simp)
    · rw [if_neg hout] at hc
      by_cases hz : (min W (bx2 - ox) - max 0 (bx1 - ox) ≤ 0 ∨
                     min H (by2 - oy) - max 0 (by1 - oy) ≤ 0)
      · rw [if_pos hz] at hc
        exact absurd hc (by simp)
      · rw [if_neg hz] at hc
        simp only [Option.some.injEq, Prod.mk.injEq] at hc
        obtain ⟨-, hxc, hyc, hwn, hhn⟩ := hc
        have hx := round6_denorm_close W (max 0 (bx1 - ox))
          (min W (bx2 - ox) - max 0 (bx1 - ox)) hW
        have hy := round6_denorm_close H (max 0 (by1 - oy))
          (min H (by2 - oy) - max 0 (by1 - oy)) hH
        rw [← hxc, ← hwn, ← hyc, ← hhn]
        refine ⟨hx.1, ?_, hy.1, ?_⟩
        · have := hx.2
          rwa [show max 0 (bx1 - ox) + (min W (bx2 - ox) - max 0 (bx1 - ox))
                = min W (bx2 - ox) by ring] at this
        · have := hy.2
          rwa [show max 0 (by1 - oy) + (min H (by2 - oy) - max 0 (by1 - oy))
                = min H (by2 - oy) by ring] at this

/-- The C8 witness annotation: the unit box in a 1x1 frame. -/
def annW8 : Ann := ⟨some 0, some 0, some 1, some 1, some 0, "Point Overload F"⟩

/-- C8 witness: the amended round-trip bound at a concrete surviving
annotation. -/
theorem c8_roundtrip_witness :
    convertAnn 0 0 1 1 annW8 = some (.byId 0, 1/2, 1/2, 1, 1) ∧
    |((1:ℚ)/2 - 1 / 2) * 1 - max 0 ((0:ℚ) - 0)| ≤ 3 * 1 / 4000000 := by
  have hconv : convertAnn 0 0 1 1 annW8 = some (.byId 0, 1/2, 1/2, 1, 1) := by
    simp only [convertAnn, annW8]
    norm_num [round6, round_eq]
  refine ⟨hconv, ?_⟩
  have h := (c8_roundtrip 0 0 1 1 (by norm_num) (by norm_num) annW8 0 0 1 1
    rfl rfl rfl rfl).2 (.byId 0) (1/2) (1/2) 1 1 hconv
  simpa using h.1

/-! ## Claim C9: label-file format -/

/-- Splitting on spaces never yields an empty field list. -/
theorem splitOnSpace_ne_nil (l : List Char) : splitOnSpace l ≠ [] := by
  cases l with
  | nil => simp [splitOnSpace]
  | cons c cs =>
    unfold splitOnSpace
    by_cases hc : c = ' '
    · rw [if_pos hc]; simp
    · rw [if_neg hc]
      cases h : splitOnSpace cs <;> simp

/-- Unfolding of `splitOnSpace` at a cons cell. -/
theorem splitOnSpace_cons (c : Char) (l : List Char) :
    splitOnSpace (c :: l) =
      if c = ' ' then [] :: splitOnSpace l
      else
        match splitOnSpace l with
        | [] => [[c]]
        | f :: fs => (c :: f) :: fs := rfl

/-- Fields concatenate across an explicit space separator. -/
theorem fieldCount_append_space (a b : List Char) :
    fieldCount (a ++ ' ' :: b) = fieldCount a + fieldCount b := by
  induction a with
  | nil =>
    unfold fieldCount
    rw [List.nil_append, splitOnSpace_cons, if_pos rfl,
        show splitOnSpace ([] : List Char) = [[]] from rfl]
    simp only [List.length_cons, List.length_nil]
    omega
  | cons c cs ih =>
    unfold fieldCount at ih ⊢
    rw [List.cons_append, splitOnSpace_cons, splitOnSpace_cons]
    by_cases hc : c = ' '
    · rw [if_pos hc, if_pos hc]
      simp only [List.length_cons]
      omega
    · rw [if_neg hc, if_neg hc]
      rcases h1 : splitOnSpace (cs ++ ' ' :: b) with _ | ⟨f, fs⟩
      · exact absurd h1 (splitOnSpace_ne_nil _)
      · rcases h2 : splitOnSpace cs with _ | ⟨g, gs⟩
        · exact absurd h2 (splitOnSpace_ne_nil _)
        · rw [h1, h2] at ih
          simp only [List.length_cons] at ih ⊢
          omega

/-- A space-free chunk is a single field. -/
theorem fieldCount_of_no_space {l : List Char} (h : ' ' ∉ l) :
    fieldCount l = 1 := by
  induction l with
  | nil => rfl
  | cons c cs ih =>
    have hc : ¬ c = ' ' := fun hc => h (hc ▸ List.mem_cons_self c cs)
    have hcs : ' ' ∉ cs := fun hm => h (List.mem_cons_of_mem c hm)
    have ih' := ih hcs
    unfold fieldCount at ih' ⊢
    rw [splitOnSpace_cons, if_neg hc]
    rcases h2 : splitOnSpace cs with _ | ⟨g, gs⟩
    · exact absurd h2 (splitOnSpace_ne_nil cs)
    · rw [h2] at ih'
      simp only [List.length_cons] at ih' ⊢
      omega

/-- Field count of a label line: the class identifier's fields plus one
field for each of the four rendered numbers. -/
theorem fieldCount_yolo_line (render : ℚ → List Char)
    (renderId : ℤ → List Char) (ci : ClassIdent) (xc yc wn hn : ℚ)
    (hrender : ∀ q, ' ' ∉ render q) :
    fieldCount (yolo_line render renderId ci xc yc wn hn) =
      fieldCount (identChars renderId ci) + 4 := by
  unfold yolo_line
  rw [fieldCount_append_space, fieldCount_append_space,
      fieldCount_append_space, fieldCount_append_space,
      fieldCount_of_no_space (hrender xc), fieldCount_of_no_space (hrender yc),
      fieldCount_of_no_space (hrender wn), fieldCount_of_no_space (hrender hn)]

/-- Every character produced by the digit expansion is a decimal digit. -/
theorem mem_natDigitsAux {c : Char} :
    ∀ (fuel n : ℕ), c ∈ natDigitsAux fuel n → ∃ d, d < 10 ∧ c = digitChar d := by
  intro fuel
  induction fuel with
  | zero => intro n h; simp [natDigitsAux] at h
  | succ fuel ih =>
    intro n h
    unfold natDigitsAux at h
    by_cases hn : n < 10
    · rw [if_pos hn] at h
      simp only [List.mem_singleton] at h
      exact ⟨n, hn, h⟩
    · rw [if_neg hn] at h
      rcases List.mem_append.mp h with h | h
      · exact ih (n / 10) h
      · simp only [List.mem_singleton] at h
        exact ⟨n % 10, Nat.mod_lt n (by norm_num), h⟩

/-- Digits are not spaces. -/
theorem digitChar_ne_space {d : ℕ} (hd : d < 10) : digitChar d ≠ ' ' := by
  interval_cases d <;> decide

/-- The natural-number rendering is space-free. -/
theorem space_not_mem_natChars (n : ℕ) : ' ' ∉ natChars n := by
  intro h
  obtain ⟨d, hd, hc⟩ := mem_natDigitsAux (n + 1) n h
  exact digitChar_ne_space hd hc.symm

/-- The integer rendering is space-free. -/
theorem space_not_mem_intChars (i : ℤ) : ' ' ∉ intChars i := by
  intro h
  unfold intChars at h
  by_cases hi : i < 0
  · rw [if_pos hi] at h
    rcases List.mem_cons.mp h with h | h
    · exact absurd h.symm (by decide)
    · exact space_not_mem_natChars _ h
  · rw [if_neg hi] at h
    exact space_not_mem_natChars _ h

/-- The rational rendering is space-free. -/
theorem space_not_mem_ratChars (q : ℚ) : ' ' ∉ ratChars q := by
  intro h
  unfold ratChars at h
  by_cases hq : q.den = 1
  · rw [if_pos hq] at h
    exact space_not_mem_intChars _ h
  · rw [if_neg hq] at h
    rcases List.mem_append.mp h with h | h
    · exact space_not_mem_intChars _ h
    · rcases List.mem_cons.mp h with h | h
      · exact absurd h.symm (by decide)
      · exact space_not_mem_natChars _ h

/-- Each emitted label line comes from one surviving annotation. -/
theorem mem_labelLines {render : ℚ → List Char} {renderId : ℤ → List Char}
    {ox oy W H : ℚ} {anns : List Ann} {l : List Char}
    (h : l ∈ labelLines render renderId ox oy W H anns) :
    ∃ a ∈ anns, ∃ ci xc yc wn hn,
      convertAnn ox oy W H a = some (ci, xc, yc, wn, hn) ∧
      l = yolo_line render renderId ci xc yc wn hn := by
  unfold labelLines at h
  obtain ⟨a, ha, hconv⟩ := List.mem_filterMap.mp h
  rcases hc : convertAnn ox oy W H a with _ | r
  · rw [hc] at hconv; simp at hconv
  · rw [hc] at hconv
    simp only [Option.map_some', Option.some.injEq] at hconv
    exact ⟨a, ha, r.1, r.2.1, r.2.2.1, r.2.2.2.1, r.2.2.2.2, by rw [hc], hconv.symm⟩

/-- Rounding keeps the unit interval. -/
theorem round6_mem_unit {q : ℚ} (h0 : 0 ≤ q) (h1 : q ≤ 1) :
    0 ≤ round6 q ∧ round6 q ≤ 1 := by
  have hmono : ∀ a b : ℚ, a ≤ b → round a ≤ round b := by
    intro a b h
    rw [round_eq, round_eq]
    exact Int.floor_mono (by linarith)
  have hlow : (0:ℤ) ≤ round (q * 1000000) := by
    have := hmono 0 (q * 1000000) (by nlinarith)
    rwa [round_zero] at this
  have hhigh : round (q * 1000000) ≤ 1000000 := by
    have := hmono (q * 1000000) 1000000 (by nlinarith)
    rwa [show round ((1000000 : ℚ)) = 1000000 by
      rw [round_eq]; norm_num] at this
  unfold round6
  constructor
  · apply div_nonneg _ (by norm_num)
    exact_mod_cast hlow
  · rw [div_le_one (by norm_num : (0:ℚ) < 1000000)]
    exact_mod_cast hhigh

/-- Inversion of a surviving conversion: the four values are the rounded
normalized center/size of the clipped box. -/
theorem convertAnn_some_values {ox oy W H : ℚ} {a : Ann}
    {ci : ClassIdent} {xc yc wn hn : ℚ}
    (hc : convertAnn ox oy W H a = some (ci, xc, yc, wn, hn)) :
    ∃ bx1 by1 bx2 by2 : ℚ,
      a.bboxX1 = some bx1 ∧ a.bboxY1 = some by1 ∧
      a.bboxX2 = some bx2 ∧ a.bboxY2 = some by2 ∧
      ¬(bx2 - ox ≤ 0 ∨ by2 - oy ≤ 0 ∨ bx1 - ox ≥ W ∨ by1 - oy ≥ H) ∧
      ¬(min W (bx2 - ox) - max 0 (bx1 - ox) ≤ 0 ∨
        min H (by2 - oy) - max 0 (by1 - oy) ≤ 0) ∧
      xc = round6 ((max 0 (bx1 - ox) +
             (min W (bx2 - ox) - max 0 (bx1 - ox)) / 2) / W) ∧
      yc = round6 ((max 0 (by1 - oy) +
             (min H (by2 - oy) - max 0 (by1 - oy)) / 2) / H) ∧
      wn = round6 ((min W (bx2 - ox) - max 0 (bx1 - ox)) / W) ∧
      hn = round6 ((min H (by2 - oy) - max 0 (by1 - oy)) / H) ∧
      (a.classId = none → ci = .byName a.className) ∧
      (∀ i, a.classId = some i → ci = .byId i) := by
  rcases h1 : a.bboxX1 with _ | bx1 <;> rcases h2 : a.bboxY1 with _ | by1 <;>
    rcases h3 : a.bboxX2 with _ | bx2 <;> rcases h4 : a.bboxY2 with _ | by2 <;>
    [skip; skip; skip; skip; skip; skip; skip; skip;
     skip; skip; skip; skip; skip; skip; skip; skip] <;>
    unfold convertAnn at hc <;> rw [h1, h2, h3, h4] at hc <;> dsimp only at hc
  case some.some.some.some =>
    by_cases hout : (bx2 - ox ≤ 0 ∨ by2 - oy ≤ 0 ∨ bx1 - ox ≥ W ∨ by1 - oy ≥ H)
    · rw [if_pos hout] at hc
      exact absurd hc (by simp)
    · rw [if_neg hout] at hc
      by_cases hz : (min W (bx2 - ox) - max 0 (bx1 - ox) ≤ 0 ∨
                     min H (by2 - oy) - max 0 (by1 - oy) ≤ 0)
      · rw [if_pos hz] at hc
        exact absurd hc (by simp)
      · rw [if_neg hz] at hc
        simp only [Option.some.injEq, Prod.mk.injEq] at hc
        obtain ⟨hci, hxc, hyc, hwn, hhn⟩ := hc
        refine ⟨bx1, by1, bx2, by2, rfl, rfl, rfl, rfl, hout, hz,
                hxc.symm, hyc.symm, hwn.symm, hhn.symm, ?_, ?_⟩
        · intro hnone
          rw [hnone] at hci
          exact hci.symm
        · intro i hsome
          rw [hsome] at hci
          exact hci.symm
  all_goals exact absurd hc (by simp)

/-- Normalized center and size of a clipped box lie in the unit interval
after rounding. -/
theorem norm_vals_unit (W A B : ℚ) (hW : 0 < W) (hA : 0 ≤ A) (hBW : B ≤ W)
    (hw : 0 < B - A) :
    (0 ≤ round6 ((A + (B - A) / 2) / W) ∧ round6 ((A + (B - A) / 2) / W) ≤ 1) ∧
    (0 ≤ round6 ((B - A) / W) ∧ round6 ((B - A) / W) ≤ 1) := by
  constructor
  · exact round6_mem_unit (div_nonneg (by linarith) hW.le)
      (by rw [div_le_one hW]; linarith)
  · exact round6_mem_unit (div_nonneg (by linarith) hW.le)
      (by rw [div_le_one hW]; linarith)

/-- Line count equals the number of surviving annotations. -/
theorem labelLines_length (render : ℚ → List Char) (renderId : ℤ → List Char)
    (ox oy W H : ℚ) (anns : List Ann) :
    (labelLines render renderId ox oy W H anns).length =
      (anns.filterMap (convertAnn ox oy W H)).length := by
  induction anns with
  | nil => rfl
  | cons a anns ih =>
    rcases hc : convertAnn ox oy W H a with _ | r <;>
      simp [labelLines, List.filterMap_cons, hc] <;>
      simpa [labelLines] using ih

/-- C9 (amended): dataset preparation writes one label line per surviving
annotation; a line consists of the class identifier followed by the four
normalized coordinates, each rounded to 6 decimals (a multiple of 10^-6 in
[0,1]) — exactly five space-separated fields whenever the annotation has a
numeric classId, while a missing classId substitutes the class name, which
may itself contain spaces; an image whose annotations all drop still gets
a label file with no label lines. -/
theorem c9_label_format (render : ℚ → List Char) (renderId : ℤ → List Char)
    (ox oy W H : ℚ) (hW : 0 < W) (hH : 0 < H) (anns : List Ann)
    (hrender : ∀ q, ' ' ∉ render q) (hrid : ∀ i, ' ' ∉ renderId i) :
    (labelLines render renderId ox oy W H anns).length =
      (anns.filterMap (convertAnn ox oy W H)).length ∧
    (∀ l ∈ labelLines render renderId ox oy W H anns,
       ∃ a ∈ anns, ∃ ci xc yc wn hn,
         convertAnn ox oy W H a = some (ci, xc, yc, wn, hn) ∧
         l = yolo_line render renderId ci xc yc wn hn ∧
         fieldCount l = fieldCount (identChars renderId ci) + 4 ∧
         (∀ i : ℤ, ci = .byId i → fieldCount l = 5)) ∧
    (∀ a ∈ anns, ∀ ci xc yc wn hn,
       convertAnn ox oy W H a = some (ci, xc, yc, wn, hn) →
       ∀ v ∈ [xc, yc, wn, hn],
         (∃ k : ℤ, v = (k : ℚ) / 1000000) ∧ 0 ≤ v ∧ v ≤ 1) ∧
    (labelLines render renderId ox oy W H anns = [] →
       ∀ f ∈ labelFileContent render renderId ox oy W H anns, f = '\n') := by
  refine ⟨labelLines_length render renderId ox oy W H anns, ?_, ?_, ?_⟩
  · intro l hl
    obtain ⟨a, ha, ci, xc, yc, wn, hn, hc, hline⟩ := mem_labelLines hl
    have hfc : fieldCount l = fieldCount (identChars renderId ci) + 4 := by
      rw [hline]
      exact fieldCount_yolo_line render renderId ci xc yc wn hn hrender
    refine ⟨a, ha, ci, xc, yc, wn, hn, hc, hline, hfc, ?_⟩
    intro i hci
    rw [hfc, hci]
    have : fieldCount (identChars renderId (.byId i)) = 1 :=
      fieldCount_of_no_space (hrid i)
    omega
  · intro a ha ci xc yc wn hn hc v hv
    obtain ⟨bx1, by1, bx2, by2, -, -, -, -, hout, hz, hxc, hyc, hwn, hhn, -, -⟩ :=
      convertAnn_some_values hc
    push_neg at hz
    obtain ⟨hwpos, hhpos⟩ := hz
    have hxu := norm_vals_unit W (max 0 (bx1 - ox)) (min W (bx2 - ox)) hW
      (le_max_left _ _) (min_le_left _ _) (by linarith)
    have hyu := norm_vals_unit H (max 0 (by1 - oy)) (min H (by2 - oy)) hH
      (le_max_left _ _) (min_le_left _ _) (by linarith)
    have hk : ∀ q : ℚ, ∃ k : ℤ, round6 q = (k : ℚ) / 1000000 :=
      fun q => ⟨round (q * 1000000), rfl⟩
    simp only [List.mem_cons, List.not_mem_nil, or_false] at hv
    rcases hv with rfl | rfl | rfl | rfl
    · exact ⟨hxc ▸ hk _, hxc ▸ hxu.1.1, hxc ▸ hxu.1.2⟩
    · exact ⟨hyc ▸ hk _, hyc ▸ hyu.1.1, hyc ▸ hyu.1.2⟩
    · exact ⟨hwn ▸ hk _, hwn ▸ hxu.2.1, hwn ▸ hxu.2.2⟩
    · exact ⟨hhn ▸ hk _, hhn ▸ hyu.2.1, hhn ▸ hyu.2.2⟩
  · intro hempty f hf
    unfold labelFileContent at hf
    by_cases he : anns.isEmpty
    · rw [if_pos he] at hf
      simp at hf
    · rw [if_neg he, hempty] at hf
      have : f ∈ ['\n'] := by simpa [List.intercalate] using hf
      exact List.mem_singleton.mp this

/-- The C9 counterexample annotation: box (10,10)-(50,50) with no numeric
classId, whose class name "Loose Joint F" contains spaces. -/
def annNoId : Ann := ⟨some 10, some 10, some 50, some 50, none, "Loose Joint F"⟩

/-- C9 counterexample: processing this annotation in a 100x100 frame with
zero offset produces a single label line with SEVEN space-separated fields,
not five: without a numeric classId the code substitutes the class name,
and "Loose Joint F" itself splits into three fields. -/
theorem c9_counterexample :
    annNoId.classId = none ∧
    (labelLines ratChars intChars 0 0 100 100 [annNoId]).map fieldCount = [7] ∧
    (7 : ℕ) ≠ 5 := by
  have hc : convertAnn 0 0 100 100 annNoId =
      some (.byName "Loose Joint F", 3/10, 3/10, 2/5, 2/5) := by
    simp only [convertAnn, annNoId]
    norm_num [round6, round_eq]
  refine ⟨rfl, ?_, by decide⟩
  have hlines : labelLines ratChars intChars 0 0 100 100 [annNoId] =
      [yolo_line ratChars intChars (.byName "Loose Joint F")
        (3/10) (3/10) (2/5) (2/5)] := by
    simp only [labelLines, List.filterMap_cons, List.filterMap_nil, hc,
      Option.map_some']
  rw [hlines, List.map_singleton,
    fieldCount_yolo_line ratChars intChars _ _ _ _ _ space_not_mem_ratChars]
  decide

/-- The C9 witness annotation: the unit box with numeric classId 2. -/
def annW9 : Ann := ⟨some 0, some 0, some 1, some 1, some 2, "Loose Joint PF"⟩

/-- C9 witness: the amended format theorem applied at a concrete surviving
annotation with a numeric classId — one line, five fields. -/
theorem c9_label_format_witness :
    (labelLines ratChars intChars 0 0 1 1 [annW9]).length =
      ([annW9].filterMap (convertAnn 0 0 1 1)).length ∧
    ∀ l ∈ labelLines ratChars intChars 0 0 1 1 [annW9], fieldCount l = 5 := by
  have h := c9_label_format ratChars intChars 0 0 1 1 (by norm_num) (by norm_num)
    [annW9] space_not_mem_ratChars space_not_mem_intChars
  refine ⟨h.1, ?_⟩
  intro l hl
  obtain ⟨a, ha, ci, xc, yc, wn, hn, hc, hline, hfc, hid⟩ := h.2.1 l hl
  have ha' : a = annW9 := List.mem_singleton.mp ha
  subst ha'
  obtain ⟨bx1, by1, bx2, by2, -, -, -, -, -, -, -, -, -, -, -, hsome⟩ :=
    convertAnn_some_values hc
  exact hid 2 (hsome 2 rfl)
